import Mathlib

/-!
Shallow embedding of the tool-registration and category-filtering engine of
`mcp-digitalocean` (`pkg/registry`, file with `parseServiceFilters`,
`hasCategory`, the per-service `register*Tools` functions and `Register`).

Modelling decisions:
* A `CapGroup` is one `s.AddTools(X.Tools()...)` call target: one capability
  group (one tool-constructor bundle) appended to the MCP server.  The server
  is modelled as the list of groups appended, in order.
* Go's `map[string][]string` built by `parseServiceFilters` is modelled as an
  association list in insertion order (Go map iteration order is unspecified;
  insertion order is the canonical representative, and every claim proved about
  it is either order-insensitive or quantifies existentially).
* Tool construction (`NewDropletTool` etc.) cannot fail in the source except
  for `apps.NewAppPlatformTool`; construction errors are environment defects
  outside the registry logic, so the register functions are modelled as pure
  group lists and the only error produced by `Register` is the
  unsupported-service error, exactly as in the code path where construction
  succeeds.
-/

/-- One capability group: the target of one `s.AddTools(...)` call in the
registry source. -/
inductive CapGroup where
  | appPlatform
  | regionTools
  | dropletBasic
  | dropletActions
  | dropletImage
  | dropletImageActions
  | dropletSizes
  | netLoadBalancers
  | netFirewall
  | netDomains
  | netCertificates
  | netVPC
  | netVPCPeering
  | netReservedIP
  | netBYOIP
  | accInfo
  | accBalance
  | accBilling
  | accInvoice
  | accKeys
  | accActions
  | spacesKeys
  | spacesCDN
  | marketplaceOneClick
  | insightsUptime
  | insightsUptimeAlert
  | insightsAlertPolicy
  | doksTool
  | dbCluster
  | dbPostgres
  | dbMysql
  | dbMongo
  | dbRedis
  | dbKafka
  | dbOpenSearch
  | dbUsers
  | dbFirewall
deriving DecidableEq, Repr

/-- The service that owns each capability group (`regionTools` belongs to the
cross-cutting `common` package). -/
def groupService : CapGroup → String
  | .appPlatform => "apps"
  | .regionTools => "common"
  | .dropletBasic => "droplets"
  | .dropletActions => "droplets"
  | .dropletImage => "droplets"
  | .dropletImageActions => "droplets"
  | .dropletSizes => "droplets"
  | .netLoadBalancers => "networking"
  | .netFirewall => "networking"
  | .netDomains => "networking"
  | .netCertificates => "networking"
  | .netVPC => "networking"
  | .netVPCPeering => "networking"
  | .netReservedIP => "networking"
  | .netBYOIP => "networking"
  | .accInfo => "accounts"
  | .accBalance => "accounts"
  | .accBilling => "accounts"
  | .accInvoice => "accounts"
  | .accKeys => "accounts"
  | .accActions => "accounts"
  | .spacesKeys => "spaces"
  | .spacesCDN => "spaces"
  | .marketplaceOneClick => "marketplace"
  | .insightsUptime => "insights"
  | .insightsUptimeAlert => "insights"
  | .insightsAlertPolicy => "insights"
  | .doksTool => "doks"
  | .dbCluster => "databases"
  | .dbPostgres => "databases"
  | .dbMysql => "databases"
  | .dbMongo => "databases"
  | .dbRedis => "databases"
  | .dbKafka => "databases"
  | .dbOpenSearch => "databases"
  | .dbUsers => "databases"
  | .dbFirewall => "databases"

/-- `supportedServices` from the source: service name → default category.
Association list in source textual order. -/
def supportedServices : List (String × String) :=
  [("apps", "basic"), ("networking", "basic"), ("droplets", "basic"),
   ("accounts", "basic"), ("spaces", "basic"), ("databases", "basic"),
   ("marketplace", "basic"), ("insights", "basic"), ("doks", "basic")]

/-- Lookup in an association list, as Go map read `m[k]` (with presence bit). -/
def alGet : List (String × List String) → String → Option (List String)
  | [], _ => none
  | (k', vs) :: rest, k => if k' = k then some vs else alGet rest k

/-- Go `result[k] = append(result[k], v)`: append to the entry for `k`, or
create the entry `[v]` if absent. -/
def alAppend : List (String × List String) → String → String → List (String × List String)
  | [], k, v => [(k, [v])]
  | (k', vs) :: rest, k, v =>
      if k' = k then (k', vs ++ [v]) :: rest else (k', vs) :: alAppend rest k v

/-- Go `strings.Index(svc, ":")` followed by the two slices: split at the
first `:` when present. -/
def splitFirstColon (s : String) : Option (String × String) :=
  match s.toList.findIdx? (· = ':') with
  | some i => some (String.mk (s.toList.take i), String.mk (s.toList.drop (i + 1)))
  | none => none

/-- The body of the loop in `parseServiceFilters`, processing one token. -/
def parseStep (result : List (String × List String)) (svc : String) :
    List (String × List String) :=
  match splitFirstColon svc with
  | some (serviceName, category) =>
      if category ≠ "" then alAppend result serviceName category else result
  | none =>
      if (alGet result svc).isSome then result else result ++ [(svc, ["basic"])]

/-- `parseServiceFilters` from the source. -/
def parseServiceFilters (services : List String) : List (String × List String) :=
  services.foldl parseStep []

/-- `hasCategory` from the source: membership of `cat`, or of `"all"`. -/
def hasCategory (categories : List String) (cat : String) : Bool :=
  categories.any (fun c => c = cat || c = "all")

/-- `registerAppTools`: apps has no sub-categories, always loads its group. -/
def registerAppTools (_categories : List String) : List CapGroup :=
  [.appPlatform]

/-- `registerCommonTools`: the always-loaded common groups. -/
def registerCommonTools : List CapGroup :=
  [.regionTools]

/-- `registerDropletTools`: gates basic / actions / images / sizes. -/
def registerDropletTools (categories : List String) : List CapGroup :=
  (if hasCategory categories "basic" then [.dropletBasic] else [])
    ++ (if hasCategory categories "actions" then [.dropletActions] else [])
    ++ (if hasCategory categories "images" then [.dropletImage, .dropletImageActions] else [])
    ++ (if hasCategory categories "sizes" then [.dropletSizes] else [])

/-- `registerNetworkingTools`: gates basic∨lb / firewall / dns / vpc / ip. -/
def registerNetworkingTools (categories : List String) : List CapGroup :=
  (if hasCategory categories "basic" || hasCategory categories "lb"
     then [.netLoadBalancers] else [])
    ++ (if hasCategory categories "firewall" then [.netFirewall] else [])
    ++ (if hasCategory categories "dns" then [.netDomains, .netCertificates] else [])
    ++ (if hasCategory categories "vpc" then [.netVPC, .netVPCPeering] else [])
    ++ (if hasCategory categories "ip" then [.netReservedIP, .netBYOIP] else [])

/-- `registerAccountTools`: gates basic∨info / billing / keys / actions. -/
def registerAccountTools (categories : List String) : List CapGroup :=
  (if hasCategory categories "basic" || hasCategory categories "info"
     then [.accInfo] else [])
    ++ (if hasCategory categories "billing" then [.accBalance, .accBilling, .accInvoice] else [])
    ++ (if hasCategory categories "keys" then [.accKeys] else [])
    ++ (if hasCategory categories "actions" then [.accActions] else [])

/-- `registerSpacesTools`: gates basic∨keys / cdn. -/
def registerSpacesTools (categories : List String) : List CapGroup :=
  (if hasCategory categories "basic" || hasCategory categories "keys"
     then [.spacesKeys] else [])
    ++ (if hasCategory categories "cdn" then [.spacesCDN] else [])

/-- `registerMarketplaceTools`: no sub-gating. -/
def registerMarketplaceTools (_categories : List String) : List CapGroup :=
  [.marketplaceOneClick]

/-- `registerInsightsTools`: gates basic∨uptime / alerts. -/
def registerInsightsTools (categories : List String) : List CapGroup :=
  (if hasCategory categories "basic" || hasCategory categories "uptime"
     then [.insightsUptime, .insightsUptimeAlert] else [])
    ++ (if hasCategory categories "alerts" then [.insightsAlertPolicy] else [])

/-- `registerDOKSTools`: no sub-gating. -/
def registerDOKSTools (_categories : List String) : List CapGroup :=
  [.doksTool]

/-- `registerDatabasesTools`: gates basic∨cluster / engines / users / firewall. -/
def registerDatabasesTools (categories : List String) : List CapGroup :=
  (if hasCategory categories "basic" || hasCategory categories "cluster"
     then [.dbCluster] else [])
    ++ (if hasCategory categories "postgresql" then [.dbPostgres] else [])
    ++ (if hasCategory categories "mysql" then [.dbMysql] else [])
    ++ (if hasCategory categories "mongodb" then [.dbMongo] else [])
    ++ (if hasCategory categories "redis" then [.dbRedis] else [])
    ++ (if hasCategory categories "kafka" then [.dbKafka] else [])
    ++ (if hasCategory categories "opensearch" then [.dbOpenSearch] else [])
    ++ (if hasCategory categories "users" then [.dbUsers] else [])
    ++ (if hasCategory categories "firewall" then [.dbFirewall] else [])

/-- The `switch svc` dispatch in `Register` (no case for an unknown service:
the membership check runs before it, so the fall-through yields nothing). -/
def registerService (svc : String) (categories : List String) : List CapGroup :=
  if svc = "apps" then registerAppTools categories
  else if svc = "networking" then registerNetworkingTools categories
  else if svc = "droplets" then registerDropletTools categories
  else if svc = "accounts" then registerAccountTools categories
  else if svc = "spaces" then registerSpacesTools categories
  else if svc = "databases" then registerDatabasesTools categories
  else if svc = "marketplace" then registerMarketplaceTools categories
  else if svc = "insights" then registerInsightsTools categories
  else if svc = "doks" then registerDOKSTools categories
  else []

/-- `setToString`: joins the catalog's keys with `,` (canonical order). -/
def setToString (set : List (String × String)) : String :=
  String.intercalate "," (set.map Prod.fst)

/-- The `fmt.Errorf("unsupported service: ...")` message of `Register`. -/
def unsupportedMsg (svc : String) : String :=
  "unsupported service: " ++ svc ++ ", supported services are: "
    ++ setToString supportedServices

/-- The `for svc, categories := range serviceFilters` loop of `Register`:
returns the groups appended to the server (partial registrations before an
error remain) and the first error. -/
def registerLoop : List (String × List String) → List CapGroup × Option String
  | [] => ([], none)
  | (svc, categories) :: rest =>
      if ((supportedServices.lookup svc).isSome : Bool) then
        let gs := registerService svc categories
        let r := registerLoop rest
        (gs ++ r.1, r.2)
      else
        ([], some (unsupportedMsg svc))

/-- The tail of `Register` after the loop: on success, unconditionally append
the common groups; on error, return the partial registrations and the error. -/
def finishRegister (r : List CapGroup × Option String) : List CapGroup × Option String :=
  match r.2 with
  | some e => (r.1, some e)
  | none => (r.1 ++ registerCommonTools, none)

/-- `Register`: default to every catalog service on zero tokens, parse, loop,
then unconditionally append the common groups on success.  Result: the groups
appended to the MCP server, and the returned error when non-nil. -/
def RegisterRun (servicesToActivate : List String) : List CapGroup × Option String :=
  let toActivate :=
    if servicesToActivate.isEmpty then supportedServices.map Prod.fst
    else servicesToActivate
  let serviceFilters := parseServiceFilters toActivate
  finishRegister (registerLoop serviceFilters)

/-- The service-name part of a token: left of the first `:`, or the whole
token when there is no separator. -/
def tokenService (t : String) : String :=
  match splitFirstColon t with
  | some (n, _) => n
  | none => t

/-- The category tokens that fire at least one gate of a sub-gated service
(aliases and `"all"` included), read off the gate predicates in the source. -/
def serviceGateCats (svc : String) : List String :=
  if svc = "networking" then ["basic", "lb", "firewall", "dns", "vpc", "ip", "all"]
  else if svc = "droplets" then ["basic", "actions", "images", "sizes", "all"]
  else if svc = "accounts" then ["basic", "info", "billing", "keys", "actions", "all"]
  else if svc = "spaces" then ["basic", "keys", "cdn", "all"]
  else if svc = "databases" then
    ["basic", "cluster", "postgresql", "mysql", "mongodb", "redis", "kafka",
     "opensearch", "users", "firewall", "all"]
  else if svc = "insights" then ["basic", "uptime", "alerts", "all"]
  else []

/-- The services whose register function gates groups behind categories
(`apps`, `doks`, `marketplace` always activate their single group). -/
def subGatedServices : List String :=
  ["networking", "droplets", "accounts", "spaces", "databases", "insights"]

/-! ### Helper lemmas about `hasCategory` -/

theorem hasCategory_of_mem {cats : List String} {x : String} (h : x ∈ cats) :
    hasCategory cats x = true := by
  simp only [hasCategory, List.any_eq_true]
  exact ⟨x, h, by simp⟩

theorem hasCategory_of_all_mem {cats : List String} (h : "all" ∈ cats) (x : String) :
    hasCategory cats x = true := by
  simp only [hasCategory, List.any_eq_true]
  exact ⟨"all", h, by simp⟩

theorem hasCategory_all_any (x : String) : hasCategory ["all"] x = true :=
  hasCategory_of_all_mem (by simp) x

theorem hasCategory_false_of_avoid {cats gates : List String}
    (hall : "all" ∈ gates) (h : ∀ c ∈ cats, c ∉ gates) {x : String} (hx : x ∈ gates) :
    hasCategory cats x = false := by
  simp only [hasCategory, List.any_eq_false]
  intro c hc
  simp only [Bool.or_eq_true, decide_eq_true_eq, not_or]
  exact ⟨fun e => h c hc (e ▸ hx), fun e => h c hc (e ▸ hall)⟩

/-! ### Sublist structure of the register functions -/

theorem gate_sublist {p : Prop} [Decidable p] (l : List CapGroup) :
    List.Sublist (if p then l else []) l := by
  split
  · exact List.Sublist.refl l
  · exact List.nil_sublist l

theorem registerDropletTools_sublist (cats : List String) :
    List.Sublist (registerDropletTools cats) (registerDropletTools ["all"]) := by
  show List.Sublist
    ((if hasCategory cats "basic" then [CapGroup.dropletBasic] else [])
      ++ (if hasCategory cats "actions" then [CapGroup.dropletActions] else [])
      ++ (if hasCategory cats "images" then [CapGroup.dropletImage, CapGroup.dropletImageActions] else [])
      ++ (if hasCategory cats "sizes" then [CapGroup.dropletSizes] else []))
    ([CapGroup.dropletBasic] ++ [CapGroup.dropletActions]
      ++ [CapGroup.dropletImage, CapGroup.dropletImageActions] ++ [CapGroup.dropletSizes])
  exact (((gate_sublist _).append (gate_sublist _)).append (gate_sublist _)).append (gate_sublist _)

theorem registerNetworkingTools_sublist (cats : List String) :
    List.Sublist (registerNetworkingTools cats) (registerNetworkingTools ["all"]) := by
  show List.Sublist
    ((if (hasCategory cats "basic" || hasCategory cats "lb" : Bool) then [CapGroup.netLoadBalancers] else [])
      ++ (if hasCategory cats "firewall" then [CapGroup.netFirewall] else [])
      ++ (if hasCategory cats "dns" then [CapGroup.netDomains, CapGroup.netCertificates] else [])
      ++ (if hasCategory cats "vpc" then [CapGroup.netVPC, CapGroup.netVPCPeering] else [])
      ++ (if hasCategory cats "ip" then [CapGroup.netReservedIP, CapGroup.netBYOIP] else []))
    ([CapGroup.netLoadBalancers] ++ [CapGroup.netFirewall]
      ++ [CapGroup.netDomains, CapGroup.netCertificates]
      ++ [CapGroup.netVPC, CapGroup.netVPCPeering]
      ++ [CapGroup.netReservedIP, CapGroup.netBYOIP])
  exact ((((gate_sublist _).append (gate_sublist _)).append (gate_sublist _)).append
    (gate_sublist _)).append (gate_sublist _)

theorem registerAccountTools_sublist (cats : List String) :
    List.Sublist (registerAccountTools cats) (registerAccountTools ["all"]) := by
  show List.Sublist
    ((if (hasCategory cats "basic" || hasCategory cats "info" : Bool) then [CapGroup.accInfo] else [])
      ++ (if hasCategory cats "billing" then [CapGroup.accBalance, CapGroup.accBilling, CapGroup.accInvoice] else [])
      ++ (if hasCategory cats "keys" then [CapGroup.accKeys] else [])
      ++ (if hasCategory cats "actions" then [CapGroup.accActions] else []))
    ([CapGroup.accInfo] ++ [CapGroup.accBalance, CapGroup.accBilling, CapGroup.accInvoice]
      ++ [CapGroup.accKeys] ++ [CapGroup.accActions])
  exact (((gate_sublist _).append (gate_sublist _)).append (gate_sublist _)).append (gate_sublist _)

theorem registerSpacesTools_sublist (cats : List String) :
    List.Sublist (registerSpacesTools cats) (registerSpacesTools ["all"]) := by
  show List.Sublist
    ((if (hasCategory cats "basic" || hasCategory cats "keys" : Bool) then [CapGroup.spacesKeys] else [])
      ++ (if hasCategory cats "cdn" then [CapGroup.spacesCDN] else []))
    ([CapGroup.spacesKeys] ++ [CapGroup.spacesCDN])
  exact (gate_sublist _).append (gate_sublist _)

theorem registerInsightsTools_sublist (cats : List String) :
    List.Sublist (registerInsightsTools cats) (registerInsightsTools ["all"]) := by
  show List.Sublist
    ((if (hasCategory cats "basic" || hasCategory cats "uptime" : Bool)
        then [CapGroup.insightsUptime, CapGroup.insightsUptimeAlert] else [])
      ++ (if hasCategory cats "alerts" then [CapGroup.insightsAlertPolicy] else []))
    ([CapGroup.insightsUptime, CapGroup.insightsUptimeAlert] ++ [CapGroup.insightsAlertPolicy])
  exact (gate_sublist _).append (gate_sublist _)

theorem registerDatabasesTools_sublist (cats : List String) :
    List.Sublist (registerDatabasesTools cats) (registerDatabasesTools ["all"]) := by
  show List.Sublist
    ((if (hasCategory cats "basic" || hasCategory cats "cluster" : Bool) then [CapGroup.dbCluster] else [])
      ++ (if hasCategory cats "postgresql" then [CapGroup.dbPostgres] else [])
      ++ (if hasCategory cats "mysql" then [CapGroup.dbMysql] else [])
      ++ (if hasCategory cats "mongodb" then [CapGroup.dbMongo] else [])
      ++ (if hasCategory cats "redis" then [CapGroup.dbRedis] else [])
      ++ (if hasCategory cats "kafka" then [CapGroup.dbKafka] else [])
      ++ (if hasCategory cats "opensearch" then [CapGroup.dbOpenSearch] else [])
      ++ (if hasCategory cats "users" then [CapGroup.dbUsers] else [])
      ++ (if hasCategory cats "firewall" then [CapGroup.dbFirewall] else []))
    ([CapGroup.dbCluster] ++ [CapGroup.dbPostgres] ++ [CapGroup.dbMysql] ++ [CapGroup.dbMongo]
      ++ [CapGroup.dbRedis] ++ [CapGroup.dbKafka] ++ [CapGroup.dbOpenSearch]
      ++ [CapGroup.dbUsers] ++ [CapGroup.dbFirewall])
  exact ((((((((gate_sublist _).append (gate_sublist _)).append (gate_sublist _)).append
    (gate_sublist _)).append (gate_sublist _)).append (gate_sublist _)).append
    (gate_sublist _)).append (gate_sublist _)).append (gate_sublist _)

theorem registerService_sublist (svc : String) (cats : List String) :
    List.Sublist (registerService svc cats) (registerService svc ["all"]) := by
  unfold registerService
  split_ifs
  · exact List.Sublist.refl _
  · exact registerNetworkingTools_sublist cats
  · exact registerDropletTools_sublist cats
  · exact registerAccountTools_sublist cats
  · exact registerSpacesTools_sublist cats
  · exact registerDatabasesTools_sublist cats
  · exact List.Sublist.refl _
  · exact registerInsightsTools_sublist cats
  · exact List.Sublist.refl _
  · exact List.Sublist.refl _

theorem registerService_all_eq (svc : String) {cats : List String} (h : "all" ∈ cats) :
    registerService svc cats = registerService svc ["all"] := by
  unfold registerService
  split_ifs <;>
    simp [registerAppTools, registerNetworkingTools, registerDropletTools,
      registerAccountTools, registerSpacesTools, registerDatabasesTools,
      registerMarketplaceTools, registerInsightsTools, registerDOKSTools,
      hasCategory_of_all_mem h, hasCategory_all_any]

theorem registerService_all_nodup (svc : String) :
    (registerService svc ["all"]).Nodup := by
  unfold registerService
  split_ifs <;> decide

theorem registerService_nodup (svc : String) (cats : List String) :
    (registerService svc cats).Nodup :=
  (registerService_all_nodup svc).sublist (registerService_sublist svc cats)

theorem registerService_mem {g : CapGroup} {svc : String} {cats : List String}
    (h : g ∈ registerService svc cats) :
    groupService g = svc ∧ svc ∈ supportedServices.map Prod.fst := by
  have hall := (registerService_sublist svc cats).subset h
  unfold registerService at hall
  split_ifs at hall with h1 h2 h3 h4 h5 h6 h7 h8 h9
  · subst h1
    refine ⟨?_, by decide⟩
    simp only [registerAppTools, List.mem_singleton] at hall
    subst hall; rfl
  · subst h2
    refine ⟨?_, by decide⟩
    have : g ∈ [CapGroup.netLoadBalancers, CapGroup.netFirewall, CapGroup.netDomains,
        CapGroup.netCertificates, CapGroup.netVPC, CapGroup.netVPCPeering,
        CapGroup.netReservedIP, CapGroup.netBYOIP] := hall
    fin_cases this <;> rfl
  · subst h3
    refine ⟨?_, by decide⟩
    have : g ∈ [CapGroup.dropletBasic, CapGroup.dropletActions, CapGroup.dropletImage,
        CapGroup.dropletImageActions, CapGroup.dropletSizes] := hall
    fin_cases this <;> rfl
  · subst h4
    refine ⟨?_, by decide⟩
    have : g ∈ [CapGroup.accInfo, CapGroup.accBalance, CapGroup.accBilling,
        CapGroup.accInvoice, CapGroup.accKeys, CapGroup.accActions] := hall
    fin_cases this <;> rfl
  · subst h5
    refine ⟨?_, by decide⟩
    have : g ∈ [CapGroup.spacesKeys, CapGroup.spacesCDN] := hall
    fin_cases this <;> rfl
  · subst h6
    refine ⟨?_, by decide⟩
    have : g ∈ [CapGroup.dbCluster, CapGroup.dbPostgres, CapGroup.dbMysql, CapGroup.dbMongo,
        CapGroup.dbRedis, CapGroup.dbKafka, CapGroup.dbOpenSearch, CapGroup.dbUsers,
        CapGroup.dbFirewall] := hall
    fin_cases this <;> rfl
  · subst h7
    refine ⟨?_, by decide⟩
    simp only [registerMarketplaceTools, List.mem_singleton] at hall
    subst hall; rfl
  · subst h8
    refine ⟨?_, by decide⟩
    have : g ∈ [CapGroup.insightsUptime, CapGroup.insightsUptimeAlert,
        CapGroup.insightsAlertPolicy] := hall
    fin_cases this <;> rfl
  · subst h9
    refine ⟨?_, by decide⟩
    simp only [registerDOKSTools, List.mem_singleton] at hall
    subst hall; rfl
  · exact absurd hall (List.not_mem_nil g)

/-! ### Claim theorems: category resolution -/

/-- C1: whenever a service's category list contains `"all"`, the register
function activates every capability group of that service (it is equal to the
activation under `["all"]` alone), and for any other category combination the
activated groups are a subset of those under `"all"`. -/
theorem all_activates_every_group :
    ∀ svc ∈ supportedServices.map Prod.fst, ∀ cats : List String, "all" ∈ cats →
      registerService svc cats = registerService svc ["all"] ∧
      ∀ cats' : List String, registerService svc cats' ⊆ registerService svc ["all"] := by
  intro svc _ cats h
  exact ⟨registerService_all_eq svc h, fun cats' => (registerService_sublist svc cats').subset⟩

theorem all_activates_every_group_witness :
    "networking" ∈ supportedServices.map Prod.fst ∧ "all" ∈ ["dns", "all"] ∧
      registerService "networking" ["dns", "all"] = registerService "networking" ["all"] :=
  ⟨by decide, by decide,
    (all_activates_every_group "networking" (by decide) ["dns", "all"] (by decide)).1⟩

/-- C2: `hasCategory categories x` is true iff `x` is an element of
`categories` or `"all"` is an element of `categories`. -/
theorem hasCategory_iff (cats : List String) (x : String) :
    hasCategory cats x = true ↔ x ∈ cats ∨ "all" ∈ cats := by
  simp only [hasCategory, List.any_eq_true, Bool.or_eq_true, decide_eq_true_eq]
  constructor
  · rintro ⟨c, hc, rfl | rfl⟩
    · exact Or.inl hc
    · exact Or.inr hc
  · rintro (hx | hall)
    · exact ⟨x, hx, Or.inl rfl⟩
    · exact ⟨"all", hall, Or.inr rfl⟩

/-- C7: with `"basic"` among the categories, every supported service's
register function activates at least one capability group; `apps`, `doks` and
`marketplace` activate their single group for every category list. -/
theorem basic_activates_at_least_one_group :
    (∀ svc ∈ supportedServices.map Prod.fst, ∀ cats : List String, "basic" ∈ cats →
        registerService svc cats ≠ []) ∧
      ∀ cats : List String,
        registerAppTools cats = [CapGroup.appPlatform] ∧
        registerDOKSTools cats = [CapGroup.doksTool] ∧
        registerMarketplaceTools cats = [CapGroup.marketplaceOneClick] := by
  constructor
  · intro svc hsvc cats hb
    have hbt := hasCategory_of_mem hb
    fin_cases hsvc <;>
      simp [registerService, registerAppTools, registerNetworkingTools, registerDropletTools,
        registerAccountTools, registerSpacesTools, registerDatabasesTools,
        registerMarketplaceTools, registerInsightsTools, registerDOKSTools, hbt]
  · intro cats
    exact ⟨rfl, rfl, rfl⟩

theorem basic_activates_at_least_one_group_witness :
    "droplets" ∈ supportedServices.map Prod.fst ∧ "basic" ∈ ["basic"] ∧
      registerService "droplets" ["basic"] ≠ [] :=
  ⟨by decide, by decide,
    basic_activates_at_least_one_group.1 "droplets" (by decide) ["basic"] (by decide)⟩

/-- C10: for a sub-gated service, a category list avoiding every gate token
(including `"basic"` and `"all"`) activates zero capability groups, silently;
in particular `Register` on `droplets:bogus` succeeds and registers only the
common groups. -/
theorem unmatched_categories_silently_ignored :
    (∀ svc ∈ subGatedServices, ∀ cats : List String,
        (∀ c ∈ cats, c ∉ serviceGateCats svc) → registerService svc cats = []) ∧
      RegisterRun ["droplets:bogus"] = ([CapGroup.regionTools], none) := by
  constructor
  · intro svc hsvc cats h
    fin_cases hsvc
    · have hf : ∀ x ∈ serviceGateCats "networking", hasCategory cats x = false :=
        fun x hx => hasCategory_false_of_avoid (by decide) h hx
      simp [registerService, registerNetworkingTools, hf "basic" (by decide),
        hf "lb" (by decide), hf "firewall" (by decide), hf "dns" (by decide),
        hf "vpc" (by decide), hf "ip" (by decide)]
    · have hf : ∀ x ∈ serviceGateCats "droplets", hasCategory cats x = false :=
        fun x hx => hasCategory_false_of_avoid (by decide) h hx
      simp [registerService, registerDropletTools, hf "basic" (by decide),
        hf "actions" (by decide), hf "images" (by decide), hf "sizes" (by decide)]
    · have hf : ∀ x ∈ serviceGateCats "accounts", hasCategory cats x = false :=
        fun x hx => hasCategory_false_of_avoid (by decide) h hx
      simp [registerService, registerAccountTools, hf "basic" (by decide),
        hf "info" (by decide), hf "billing" (by decide), hf "keys" (by decide),
        hf "actions" (by decide)]
    · have hf : ∀ x ∈ serviceGateCats "spaces", hasCategory cats x = false :=
        fun x hx => hasCategory_false_of_avoid (by decide) h hx
      simp [registerService, registerSpacesTools, hf "basic" (by decide),
        hf "keys" (by decide), hf "cdn" (by decide)]
    · have hf : ∀ x ∈ serviceGateCats "databases", hasCategory cats x = false :=
        fun x hx => hasCategory_false_of_avoid (by decide) h hx
      simp [registerService, registerDatabasesTools, hf "basic" (by decide),
        hf "cluster" (by decide), hf "postgresql" (by decide), hf "mysql" (by decide),
        hf "mongodb" (by decide), hf "redis" (by decide), hf "kafka" (by decide),
        hf "opensearch" (by decide), hf "users" (by decide), hf "firewall" (by decide)]
    · have hf : ∀ x ∈ serviceGateCats "insights", hasCategory cats x = false :=
        fun x hx => hasCategory_false_of_avoid (by decide) h hx
      simp [registerService, registerInsightsTools, hf "basic" (by decide),
        hf "uptime" (by decide), hf "alerts" (by decide)]
  · decide

theorem unmatched_categories_silently_ignored_witness :
    "droplets" ∈ subGatedServices ∧ registerService "droplets" ["bogus"] = [] :=
  ⟨by decide,
    unmatched_categories_silently_ignored.1 "droplets" (by decide) ["bogus"] (by decide)⟩

/-! ### Claim theorems: the spec parser -/

theorem alGet_alAppend_self (m : List (String × List String)) (k v : String) :
    alGet (alAppend m k v) k = some ((alGet m k).getD [] ++ [v]) := by
  induction m with
  | nil => simp [alAppend, alGet]
  | cons p rest ih =>
    obtain ⟨k', vs⟩ := p
    by_cases hk : k' = k
    · subst hk
      simp [alAppend, alGet]
    · simp [alAppend, alGet, hk, ih]

/-- C3: a separator-free token seeds the default `["basic"]` when its service
has no entry yet, adds nothing when it already has one, and a token with an
explicit category appends that category to the service's list; in particular
`["droplets", "droplets:actions"]` parses to `{droplets ↦ [basic, actions]}`. -/
theorem parse_defaults_and_accumulates :
    (∀ (m : List (String × List String)) (s : String),
        splitFirstColon s = none → alGet m s = none →
        parseStep m s = m ++ [(s, ["basic"])]) ∧
      (∀ (m : List (String × List String)) (s : String),
          splitFirstColon s = none → (alGet m s).isSome = true →
          parseStep m s = m) ∧
      (∀ (m : List (String × List String)) (s n c : String),
          splitFirstColon s = some (n, c) → c ≠ "" →
          alGet (parseStep m s) n = some ((alGet m n).getD [] ++ [c])) ∧
      parseServiceFilters ["droplets", "droplets:actions"]
        = [("droplets", ["basic", "actions"])] := by
  refine ⟨?_, ?_, ?_, by decide⟩
  · intro m s h1 h2
    simp [parseStep, h1, h2]
  · intro m s h1 h2
    simp [parseStep, h1, h2]
  · intro m s n c h hc
    simp only [parseStep, h, ne_eq, hc, not_false_iff, if_true, ite_not]
    simp [hc, alGet_alAppend_self]

theorem parse_defaults_and_accumulates_witness :
    parseStep [] "droplets" = [] ++ [("droplets", ["basic"])] ∧
      parseStep [("droplets", ["basic"])] "droplets" = [("droplets", ["basic"])] ∧
      alGet (parseStep [("droplets", ["basic"])] "droplets:actions") "droplets"
        = some ((alGet [("droplets", ["basic"])] "droplets").getD [] ++ ["actions"]) :=
  ⟨parse_defaults_and_accumulates.1 [] "droplets" (by decide) (by decide),
   parse_defaults_and_accumulates.2.1 [("droplets", ["basic"])] "droplets"
     (by decide) (by decide),
   parse_defaults_and_accumulates.2.2.1 [("droplets", ["basic"])] "droplets:actions"
     "droplets" "actions" (by decide) (by decide)⟩

/-- C9: a token of the form `service:` (empty category after the separator)
contributes nothing to the parse result, at any position; the parser is a
total function, so it never fails on any input. -/
theorem empty_category_token_dropped :
    ∀ (pre post : List String) (t n : String), splitFirstColon t = some (n, "") →
      parseServiceFilters (pre ++ t :: post) = parseServiceFilters (pre ++ post) := by
  intro pre post t n h
  have hstep : ∀ m, parseStep m t = m := by
    intro m
    unfold parseStep
    rw [h]
    simp
  simp only [parseServiceFilters, List.foldl_append, List.foldl_cons, hstep]

theorem empty_category_token_dropped_witness :
    parseServiceFilters (["droplets"] ++ "networking:" :: ["doks"])
      = parseServiceFilters (["droplets"] ++ ["doks"]) :=
  empty_category_token_dropped ["droplets"] ["doks"] "networking:" "networking" (by decide)

/-! ### Claim theorems: the registration driver -/

/-- C5: whenever `Register` succeeds, the common capability groups were
appended unconditionally after all service-specific groups, so the region
tools are present in the registered output. -/
theorem common_groups_on_success :
    ∀ tokens : List String, (RegisterRun tokens).2 = none →
      (∃ pre, (RegisterRun tokens).1 = pre ++ registerCommonTools) ∧
        CapGroup.regionTools ∈ (RegisterRun tokens).1 := by
  intro tokens h
  unfold RegisterRun at h ⊢
  have hfin : ∀ r : List CapGroup × Option String,
      (finishRegister r).2 = none → finishRegister r = (r.1 ++ registerCommonTools, none) := by
    rintro ⟨gs, _ | e⟩ hr
    · rfl
    · exact absurd hr (by simp [finishRegister])
  rw [hfin _ h]
  exact ⟨⟨_, rfl⟩, by simp [registerCommonTools]⟩

theorem common_groups_on_success_witness :
    (RegisterRun []).2 = none ∧ CapGroup.regionTools ∈ (RegisterRun []).1 :=
  ⟨by decide, (common_groups_on_success [] (by decide)).2⟩

/-- C8: zero tokens register exactly what listing every catalog service with
no category registers, the zero-token run succeeds, and it activates a
non-empty set of groups (fail-open, never zero tools). -/
theorem zero_tokens_equiv_all_services :
    RegisterRun [] = RegisterRun (supportedServices.map Prod.fst) ∧
      (RegisterRun []).2 = none ∧ (RegisterRun []).1 ≠ [] := by
  refine ⟨?_, ?_, ?_⟩ <;> decide

/-! ### Keys of the parsed filter map -/

theorem alGet_isSome_iff (m : List (String × List String)) (k : String) :
    (alGet m k).isSome = true ↔ k ∈ m.map Prod.fst := by
  induction m with
  | nil => simp [alGet]
  | cons p rest ih =>
    obtain ⟨k', vs⟩ := p
    by_cases hk : k' = k
    · subst hk; simp [alGet]
    · simp only [alGet, hk, if_false, List.map_cons, List.mem_cons]
      rw [ih]
      constructor
      · exact Or.inr
      · rintro (h | h)
        · exact absurd h.symm hk
        · exact h

theorem alAppend_keys (m : List (String × List String)) (k v : String) :
    (alAppend m k v).map Prod.fst
      = if k ∈ m.map Prod.fst then m.map Prod.fst else m.map Prod.fst ++ [k] := by
  induction m with
  | nil => simp [alAppend]
  | cons p rest ih =>
    obtain ⟨k', vs⟩ := p
    by_cases hk : k' = k
    · subst hk; simp [alAppend]
    · have he : alAppend ((k', vs) :: rest) k v = (k', vs) :: alAppend rest k v := by
        simp [alAppend, hk]
      rw [he]
      simp only [List.map_cons]
      rw [ih]
      by_cases hm : k ∈ rest.map Prod.fst
      · rw [if_pos hm, if_pos (by simp [hm])]
      · rw [if_neg hm, if_neg ?_, List.cons_append]
        simp only [List.mem_cons, not_or]
        exact ⟨fun e => hk e.symm, hm⟩

theorem alAppend_keys_nodup {m : List (String × List String)}
    (h : (m.map Prod.fst).Nodup) (k v : String) :
    ((alAppend m k v).map Prod.fst).Nodup := by
  rw [alAppend_keys]
  split_ifs with hk
  · exact h
  · simp [List.nodup_append, h, hk]

theorem mem_alAppend_keys {m : List (String × List String)} {k' : String}
    (h : k' ∈ m.map Prod.fst) (k v : String) : k' ∈ (alAppend m k v).map Prod.fst := by
  rw [alAppend_keys]
  split_ifs <;> simp [h]

theorem self_mem_alAppend_keys (m : List (String × List String)) (k v : String) :
    k ∈ (alAppend m k v).map Prod.fst := by
  rw [alAppend_keys]
  split_ifs with hk <;> simp [hk]

theorem parseStep_keys_nodup {m : List (String × List String)}
    (h : (m.map Prod.fst).Nodup) (t : String) :
    ((parseStep m t).map Prod.fst).Nodup := by
  rcases hsp : splitFirstColon t with _ | ⟨n, c⟩
  · simp only [parseStep, hsp]
    split_ifs with hp
    · exact h
    · have hn : t ∉ m.map Prod.fst := by
        rw [← alGet_isSome_iff]
        simpa using hp
      simp [List.nodup_append, h, hn]
  · simp only [parseStep, hsp]
    split_ifs with hc
    · exact alAppend_keys_nodup h n c
    · exact h

theorem parseStep_keys_mono {m : List (String × List String)} {k : String}
    (h : k ∈ m.map Prod.fst) (t : String) : k ∈ (parseStep m t).map Prod.fst := by
  rcases hsp : splitFirstColon t with _ | ⟨n, c⟩
  · simp only [parseStep, hsp]
    split_ifs
    · exact h
    · simp [h]
  · simp only [parseStep, hsp]
    split_ifs
    · exact mem_alAppend_keys h n c
    · exact h

theorem parseFold_keys_nodup (l : List String) :
    ∀ m : List (String × List String), (m.map Prod.fst).Nodup →
      ((l.foldl parseStep m).map Prod.fst).Nodup := by
  induction l with
  | nil => exact fun m h => h
  | cons t rest ih => exact fun m h => ih _ (parseStep_keys_nodup h t)

theorem parseFold_keys_mono (l : List String) :
    ∀ {m : List (String × List String)} {k : String}, k ∈ m.map Prod.fst →
      k ∈ (l.foldl parseStep m).map Prod.fst := by
  induction l with
  | nil => exact fun h => h
  | cons t rest ih => exact fun h => ih (parseStep_keys_mono h t)

theorem parseServiceFilters_keys_nodup (tokens : List String) :
    ((parseServiceFilters tokens).map Prod.fst).Nodup :=
  parseFold_keys_nodup tokens [] (by simp)

theorem tokenService_mem_parseStep (m : List (String × List String)) {t : String}
    (hkept : splitFirstColon t = none ∨ ∃ n c, splitFirstColon t = some (n, c) ∧ c ≠ "") :
    tokenService t ∈ (parseStep m t).map Prod.fst := by
  rcases hkept with hsp | ⟨n, c, hsp, hc⟩
  · simp only [tokenService, parseStep, hsp]
    split_ifs with hp
    · rw [← alGet_isSome_iff]
      exact hp
    · simp
  · simp only [tokenService, parseStep, hsp]
    split_ifs
    exact self_mem_alAppend_keys m n c

theorem tokenService_mem_parse {tokens : List String} {t : String} (ht : t ∈ tokens)
    (hkept : splitFirstColon t = none ∨ ∃ n c, splitFirstColon t = some (n, c) ∧ c ≠ "") :
    tokenService t ∈ (parseServiceFilters tokens).map Prod.fst := by
  obtain ⟨pre, post, rfl⟩ := List.append_of_mem ht
  unfold parseServiceFilters
  rw [List.foldl_append, List.foldl_cons]
  exact parseFold_keys_mono post (tokenService_mem_parseStep _ hkept)

/-! ### The registration loop -/

theorem lookup_isSome_iff (l : List (String × String)) (k : String) :
    (l.lookup k).isSome = true ↔ k ∈ l.map Prod.fst := by
  induction l with
  | nil => simp [List.lookup]
  | cons p rest ih =>
    obtain ⟨k', v⟩ := p
    by_cases hk : k = k'
    · subst hk; simp [List.lookup]
    · have hb : (k == k') = false := by simp [hk]
      simp only [List.lookup, hb, List.map_cons, List.mem_cons]
      rw [ih]
      constructor
      · exact Or.inr
      · rintro (h | h)
        · exact absurd h hk
        · exact h

theorem registerLoop_mem {g : CapGroup} :
    ∀ {l : List (String × List String)}, g ∈ (registerLoop l).1 →
      ∃ p ∈ l, g ∈ registerService p.1 p.2 := by
  intro l
  induction l with
  | nil => intro h; simp [registerLoop] at h
  | cons p rest ih =>
    intro h
    obtain ⟨svc, cats⟩ := p
    simp only [registerLoop] at h
    split_ifs at h with hs
    · rcases List.mem_append.mp h with h1 | h2
      · exact ⟨(svc, cats), by simp, h1⟩
      · obtain ⟨q, hq, hg⟩ := ih h2
        exact ⟨q, by simp [hq], hg⟩
    · simp at h

theorem registerLoop_nodup :
    ∀ {l : List (String × List String)}, (l.map Prod.fst).Nodup →
      ((registerLoop l).1).Nodup := by
  intro l
  induction l with
  | nil => intro _; simp [registerLoop]
  | cons p rest ih =>
    intro h
    obtain ⟨svc, cats⟩ := p
    simp only [List.map_cons, List.nodup_cons] at h
    obtain ⟨hsvc, hrest⟩ := h
    simp only [registerLoop]
    split_ifs with hs
    · refine List.Nodup.append (registerService_nodup svc cats) (ih hrest) ?_
      intro g hg1 hg2
      obtain ⟨q, hq, hgq⟩ := registerLoop_mem hg2
      have e1 := (registerService_mem hg1).1
      have e2 := (registerService_mem hgq).1
      have hqk : q.1 ∈ rest.map Prod.fst := List.mem_map_of_mem Prod.fst hq
      rw [← e2, e1] at hqk
      exact hsvc hqk
    · simp

theorem regionTools_not_in_loop (l : List (String × List String)) :
    CapGroup.regionTools ∉ (registerLoop l).1 := by
  intro h
  obtain ⟨p, _, hg⟩ := registerLoop_mem h
  have h1 := (registerService_mem hg).1
  have h2 := (registerService_mem hg).2
  rw [← h1] at h2
  exact absurd h2 (by decide)

theorem registerLoop_error_of_unknown :
    ∀ {l : List (String × List String)} {k : String}, k ∈ l.map Prod.fst →
      k ∉ supportedServices.map Prod.fst →
      ∃ bad, bad ∉ supportedServices.map Prod.fst ∧
        (registerLoop l).2 = some (unsupportedMsg bad) := by
  intro l
  induction l with
  | nil => intro k h _; simp at h
  | cons p rest ih =>
    intro k hk hunk
    obtain ⟨svc, cats⟩ := p
    simp only [registerLoop]
    split_ifs with hs
    · simp only [List.map_cons, List.mem_cons] at hk
      rcases hk with rfl | hk'
      · exact absurd ((lookup_isSome_iff _ _).mp hs) hunk
      · exact ih hk' hunk
    · exact ⟨svc, fun hm => hs ((lookup_isSome_iff _ _).mpr hm), rfl⟩

theorem finishRegister_snd (r : List CapGroup × Option String) :
    (finishRegister r).2 = r.2 := by
  rcases r with ⟨gs, _ | e⟩ <;> rfl

theorem finishRegister_fst_of_err {r : List CapGroup × Option String} {e : String}
    (h : r.2 = some e) : (finishRegister r).1 = r.1 := by
  rcases r with ⟨gs, _ | e'⟩
  · exact absurd h (by simp)
  · rfl

theorem finishRegister_fst_nodup {r : List CapGroup × Option String}
    (h : r.1.Nodup) (hn : CapGroup.regionTools ∉ r.1) :
    ((finishRegister r).1).Nodup := by
  rcases r with ⟨gs, _ | e⟩
  · simp only [finishRegister]
    simp [List.nodup_append, registerCommonTools, h, hn]
  · exact h

/-- C6: one `Register` call never performs a capability group's activation
twice, for any token sequence (including repeated or overlapping category
tokens): the list of groups appended to the server has no duplicates. -/
theorem no_duplicate_group_activations (tokens : List String) :
    ((RegisterRun tokens).1).Nodup := by
  show ((finishRegister (registerLoop (parseServiceFilters
    (if tokens.isEmpty then supportedServices.map Prod.fst else tokens)))).1).Nodup
  exact finishRegister_fst_nodup
    (registerLoop_nodup (parseServiceFilters_keys_nodup _))
    (regionTools_not_in_loop _)

/-! ### The unsupported-service error message -/

theorem setToString_eval :
    setToString supportedServices
      = "apps,networking,droplets,accounts,spaces,databases,marketplace,insights,doks" := rfl

theorem unsupportedMsg_contains_service (svc : String) :
    ∃ p q, unsupportedMsg svc = p ++ (svc ++ q) := by
  refine ⟨"unsupported service: ",
    ", supported services are: " ++ setToString supportedServices, ?_⟩
  unfold unsupportedMsg
  rw [String.append_assoc, String.append_assoc]

theorem unsupportedMsg_contains_names (svc : String) :
    ∀ k ∈ supportedServices.map Prod.fst, ∃ p q, unsupportedMsg svc = p ++ (k ++ q) := by
  intro k hk
  fin_cases hk
  · exact ⟨"unsupported service: " ++ (svc ++ ", supported services are: "),
      ",networking,droplets,accounts,spaces,databases,marketplace,insights,doks", by
        simp [unsupportedMsg, setToString_eval, String.append_assoc]⟩
  · exact ⟨"unsupported service: " ++ (svc ++ ", supported services are: apps,"),
      ",droplets,accounts,spaces,databases,marketplace,insights,doks", by
        simp [unsupportedMsg, setToString_eval, String.append_assoc]⟩
  · exact ⟨"unsupported service: " ++ (svc ++ ", supported services are: apps,networking,"),
      ",accounts,spaces,databases,marketplace,insights,doks", by
        simp [unsupportedMsg, setToString_eval, String.append_assoc]⟩
  · exact ⟨"unsupported service: "
        ++ (svc ++ ", supported services are: apps,networking,droplets,"),
      ",spaces,databases,marketplace,insights,doks", by
        simp [unsupportedMsg, setToString_eval, String.append_assoc]⟩
  · exact ⟨"unsupported service: "
        ++ (svc ++ ", supported services are: apps,networking,droplets,accounts,"),
      ",databases,marketplace,insights,doks", by
        simp [unsupportedMsg, setToString_eval, String.append_assoc]⟩
  · exact ⟨"unsupported service: "
        ++ (svc ++ ", supported services are: apps,networking,droplets,accounts,spaces,"),
      ",marketplace,insights,doks", by
        simp [unsupportedMsg, setToString_eval, String.append_assoc]⟩
  · exact ⟨"unsupported service: " ++ (svc
        ++ ", supported services are: apps,networking,droplets,accounts,spaces,databases,"),
      ",insights,doks", by
        simp [unsupportedMsg, setToString_eval, String.append_assoc]⟩
  · exact ⟨"unsupported service: " ++ (svc
        ++ ", supported services are: apps,networking,droplets,accounts,spaces,databases,marketplace,"),
      ",doks", by
        simp [unsupportedMsg, setToString_eval, String.append_assoc]⟩
  · exact ⟨"unsupported service: " ++ (svc
        ++ ", supported services are: apps,networking,droplets,accounts,spaces,databases,marketplace,insights,"),
      "", by
        simp [unsupportedMsg, setToString_eval, String.append_assoc]⟩

/-- C4 counterexample: the token sequence `["bogus:"]` contains the service
name `bogus`, absent from the catalog, yet `Register` returns no error (the
empty category makes the parser drop the token entirely) and registers only
the common groups. -/
theorem unknown_service_empty_category_no_error :
    tokenService "bogus:" = "bogus" ∧
      "bogus" ∉ supportedServices.map Prod.fst ∧
      (RegisterRun ["bogus:"]).2 = none ∧
      (RegisterRun ["bogus:"]).1 = [CapGroup.regionTools] := by
  refine ⟨?_, ?_, ?_, ?_⟩ <;> decide

/-- C4 (amended): for every token sequence containing a token whose service
part is unknown and which the parser keeps (it is separator-free, or its
category is non-empty — a bare `service:` is dropped before validation),
`Register` returns a non-nil error: the unsupported-service message for some
unknown service, which names that service and contains every known service
name; and no capability group of the unknown service is registered. -/
theorem unknown_service_aborts :
    ∀ (tokens : List String) (t : String), t ∈ tokens →
      tokenService t ∉ supportedServices.map Prod.fst →
      (splitFirstColon t = none ∨ ∃ n c, splitFirstColon t = some (n, c) ∧ c ≠ "") →
      ∃ bad, bad ∉ supportedServices.map Prod.fst ∧
        (RegisterRun tokens).2 = some (unsupportedMsg bad) ∧
        (∃ p q, unsupportedMsg bad = p ++ (bad ++ q)) ∧
        (∀ k ∈ supportedServices.map Prod.fst, ∃ p q, unsupportedMsg bad = p ++ (k ++ q)) ∧
        ∀ g ∈ (RegisterRun tokens).1, groupService g ≠ tokenService t := by
  intro tokens t ht hunk hkept
  have htok : (if tokens.isEmpty then supportedServices.map Prod.fst else tokens) = tokens := by
    cases tokens
    · cases ht
    · rfl
  have hmem := tokenService_mem_parse ht hkept
  obtain ⟨bad, hbad, herr⟩ := registerLoop_error_of_unknown hmem hunk
  have hrun : RegisterRun tokens
      = finishRegister (registerLoop (parseServiceFilters tokens)) := by
    show finishRegister (registerLoop (parseServiceFilters
      (if tokens.isEmpty then supportedServices.map Prod.fst else tokens)))
        = finishRegister (registerLoop (parseServiceFilters tokens))
    rw [htok]
  refine ⟨bad, hbad, ?_, unsupportedMsg_contains_service bad,
    unsupportedMsg_contains_names bad, ?_⟩
  · rw [hrun, finishRegister_snd]
    exact herr
  · intro g hg
    rw [hrun, finishRegister_fst_of_err herr] at hg
    obtain ⟨p, _, hgp⟩ := registerLoop_mem hg
    have h1 := (registerService_mem hgp).1
    have h2 := (registerService_mem hgp).2
    rw [h1]
    intro e
    rw [e] at h2
    exact hunk h2

theorem unknown_service_aborts_witness :
    ∃ bad, bad ∉ supportedServices.map Prod.fst ∧
      (RegisterRun ["droplets", "bogus"]).2 = some (unsupportedMsg bad) ∧
      (∃ p q, unsupportedMsg bad = p ++ (bad ++ q)) ∧
      (∀ k ∈ supportedServices.map Prod.fst, ∃ p q, unsupportedMsg bad = p ++ (k ++ q)) ∧
      ∀ g ∈ (RegisterRun ["droplets", "bogus"]).1, groupService g ≠ tokenService "bogus" :=
  unknown_service_aborts ["droplets", "bogus"] "bogus" (by decide) (by decide)
    (Or.inl (by decide))
